import Mathlib

/-!
# Verification of the xerolend SP1 checker programs

Shallow embedding of the three commitment-verifying predicate checkers
(`collateral-value`, `loan-amount`, `reputation`) from
`src/backend/zkproof-service/sp1-programs/`, together with proofs of the
specified properties.

Modelling conventions:
* Rust `String` values are modelled as their UTF-8 byte sequences,
  `List ℕ` with every byte below 256.
* `u32` / `u64` / `usize` values are modelled as `ℕ` (the checkers only
  compare and count; no wrapping arithmetic occurs in the source).
* The `f32` arithmetic in `calculate_reputation` is modelled exactly:
  IEEE-754 binary32 round-to-nearest, ties-to-even. A nonnegative float
  value is carried as an exact scaled integer `(m, e) : ℕ × ℤ` denoting
  `m · 2 ^ e`; every operation rounds its exact result to a 24-bit
  significand, which is precisely the IEEE behaviour. The values reached
  by the program (counts, their quotient in `[0,1]`, and that quotient
  times 100) are all far inside the normal range of `binary32`, so
  overflow and subnormal rounding never arise and the unclamped rounding
  below agrees with `f32` on them.
* SHA-256 (the `sha2` crate) is implemented in full over byte lists;
  the incremental `update` calls of the source concatenate their inputs,
  so `compute_commitment` hashes the concatenation of its arguments.
-/

namespace Xerolend

/-- Rust `String` / byte-string data, as its sequence of bytes. -/
abbrev Bytes := List ℕ

/-! ## Exact binary32 rounding model -/

namespace F32

/-- Round `p / q` (with `q ≠ 0` intended) to the nearest integer,
ties to even — the IEEE-754 default rounding on the scaled significand. -/
def rne (p q : ℕ) : ℕ :=
  let d := p / q
  let r := p % q
  if 2 * r < q then d
  else if q < 2 * r then d + 1
  else if d % 2 = 0 then d else d + 1

/-- Fuel-driven bit length: `nbitsAux fuel n` is the bit length of `n`
whenever `fuel ≥ n`. Structural recursion on the fuel keeps it
kernel-reducible. -/
def nbitsAux : ℕ → ℕ → ℕ
  | 0, _ => 0
  | fuel + 1, n => if n = 0 then 0 else nbitsAux fuel (n / 2) + 1

/-- Bit length of a natural number (`0` for `0`). -/
def nbits (n : ℕ) : ℕ := nbitsAux n n

/-- Does `2 ^ e ≤ a / b` hold (as rationals), for an integer exponent? -/
def pow2le (e : ℤ) (a b : ℕ) : Bool :=
  if 0 ≤ e then decide (b * 2 ^ e.toNat ≤ a) else decide (b ≤ a * 2 ^ (-e).toNat)

/-- The binade exponent of `a / b` for positive `a`, `b`: the unique `e`
with `2 ^ e ≤ a / b < 2 ^ (e + 1)`. The bit-length difference is within
one of the answer, so one test corrects the guess. -/
def fexp (a b : ℕ) : ℤ :=
  let g : ℤ := (nbits a : ℤ) - (nbits b : ℤ)
  if pow2le g a b then g else g - 1

/-- A nonnegative `binary32` value, carried exactly as `(m, e)` denoting
`m · 2 ^ e`. The representation is not normalised; only the denoted
value matters, and the rounding step below renormalises anyway. -/
abbrev F := ℕ × ℤ

/-- Round the exact value `(a / b) · 2 ^ off` (for `a, b > 0`) to the
nearest `binary32` value, ties to even. The significand is the
nearest-even rounding of `(a / b) · 2 ^ (23 - e)` with `e` the binade
exponent of `a / b`, which lies in `[2^23, 2^24]`; the power-of-two
factor `2 ^ off` shifts only the exponent. Exponent clamping (overflow /
subnormals) is omitted: every value rounded in this development lies
well inside the normal range of `binary32`. Zero inputs round to zero. -/
def rnP (a b : ℕ) (off : ℤ) : F :=
  if a = 0 ∨ b = 0 then (0, 0)
  else
    let e := fexp a b
    let s : ℤ := 23 - e
    let m := if 0 ≤ s then rne (a * 2 ^ s.toNat) b else rne a (b * 2 ^ (-s).toNat)
    (m, e - 23 + off)

/-- Rust's `usize as f32` conversion (round to nearest, ties to even),
for the nonnegative values used here. -/
def ofNat (n : ℕ) : F := rnP n 1 0

/-- `f32` division: the exact quotient, correctly rounded. -/
def fdiv (x y : F) : F := rnP x.1 y.1 (x.2 - y.2)

/-- `f32` multiplication by a small constant whose value (here `100.0`)
is itself exactly representable: the exact product, correctly rounded. -/
def fmulNat (x : F) (c : ℕ) : F := rnP (x.1 * c) 1 x.2

/-- Mathematical floor of the denoted nonnegative value. -/
def ffloor (x : F) : ℕ :=
  if 0 ≤ x.2 then x.1 * 2 ^ x.2.toNat else x.1 / 2 ^ (-x.2).toNat

/-- Rust's saturating `f32 as u32` cast on a nonnegative non-NaN value:
truncate toward zero, clamp into `[0, 2^32 - 1]`. -/
def toU32 (x : F) : ℕ := min (ffloor x) 4294967295

end F32

/-! ## Decimal rendering (`u64::to_string` / `u32::to_string`) -/

/-- Fuel-driven little-endian decimal digits of `n` (ASCII), valid when
`fuel ≥ n`. -/
def decDigitsAux : ℕ → ℕ → List ℕ
  | 0, _ => []
  | fuel + 1, n => if n = 0 then [] else (48 + n % 10) :: decDigitsAux fuel (n / 10)

/-- Rust's `to_string` on an unsigned integer: canonical decimal ASCII,
no leading zeros, `"0"` for zero. -/
def toStringBytes (n : ℕ) : Bytes :=
  if n = 0 then [48] else (decDigitsAux n n).reverse

/-! ## SHA-256 (the `sha2` crate), over byte lists -/

namespace Sha256

/-- Reduce into a 32-bit word. -/
def w32 (n : ℕ) : ℕ := n % 4294967296

/-- Rotate a 32-bit word right by `k` bits (arithmetically: the low `k`
bits move to the top). -/
def rotr (k n : ℕ) : ℕ := n / 2 ^ k + n % 2 ^ k * 2 ^ (32 - k)

/-- Bitwise complement of a 32-bit word. -/
def wnot (n : ℕ) : ℕ := 4294967295 - n

/-- SHA-256 choice function `Ch(x,y,z)`. -/
def ch (x y z : ℕ) : ℕ := (x &&& y) ^^^ (wnot x &&& z)

/-- SHA-256 majority function `Maj(x,y,z)`. -/
def maj (x y z : ℕ) : ℕ := (x &&& y) ^^^ (x &&& z) ^^^ (y &&& z)

/-- SHA-256 `Σ₀`. -/
def bigSigma0 (x : ℕ) : ℕ := rotr 2 x ^^^ rotr 13 x ^^^ rotr 22 x

/-- SHA-256 `Σ₁`. -/
def bigSigma1 (x : ℕ) : ℕ := rotr 6 x ^^^ rotr 11 x ^^^ rotr 25 x

/-- SHA-256 `σ₀`. -/
def smallSigma0 (x : ℕ) : ℕ := rotr 7 x ^^^ rotr 18 x ^^^ x / 2 ^ 3

/-- SHA-256 `σ₁`. -/
def smallSigma1 (x : ℕ) : ℕ := rotr 17 x ^^^ rotr 19 x ^^^ x / 2 ^ 10

/-- The 64 SHA-256 round constants (FIPS 180-4, written in decimal). -/
def K : List ℕ :=
  [1116352408, 1899447441, 3049323471, 3921009573, 961987163, 1508970993,
   2453635748, 2870763221, 3624381080, 310598401, 607225278, 1426881987,
   1925078388, 2162078206, 2614888103, 3248222580, 3835390401, 4022224774,
   264347078, 604807628, 770255983, 1249150122, 1555081692, 1996064986,
   2554220882, 2821834349, 2952996808, 3210313671, 3336571891, 3584528711,
   113926993, 338241895, 666307205, 773529912, 1294757372, 1396182291,
   1695183700, 1986661051, 2177026350, 2456956037, 2730485921, 2820302411,
   3259730800, 3345764771, 3516065817, 3600352804, 4094571909, 275423344,
   430227734, 506948616, 659060556, 883997877, 958139571, 1322822218,
   1537002063, 1747873779, 1955562222, 2024104815, 2227730452, 2361852424,
   2428436474, 2756734187, 3204031479, 3329325298]

/-- The SHA-256 initial hash state (FIPS 180-4, written in decimal). -/
def H0 : List ℕ :=
  [1779033703, 3144134277, 1013904242, 2773480762,
   1359893119, 2600822924, 528734635, 1541459225]

/-- Group bytes into 32-bit words, big-endian, four bytes at a time. -/
def toWords : List ℕ → List ℕ
  | b0 :: b1 :: b2 :: b3 :: rest => (((b0 * 256 + b1) * 256 + b2) * 256 + b3) :: toWords rest
  | _ => []

/-- Big-endian bytes of `n`, `k` bytes wide (most significant first). -/
def beBytes : ℕ → ℕ → List ℕ
  | 0, _ => []
  | k + 1, n => n / 2 ^ (8 * k) % 256 :: beBytes k n

/-- Message-schedule extension step, on the reversed (newest-first)
prefix of the schedule: prepend
`σ₁(w[i-2]) + w[i-7] + σ₀(w[i-15]) + w[i-16]` the requested number of
times, then restore order. -/
def schedGo : ℕ → List ℕ → List ℕ
  | 0, acc => acc.reverse
  | n + 1, acc =>
      let x := w32 (smallSigma1 (acc.getD 1 0) + acc.getD 6 0 +
        smallSigma0 (acc.getD 14 0) + acc.getD 15 0)
      schedGo n (x :: acc)

/-- The 64-word message schedule of one 16-word block. -/
def schedule (ws : List ℕ) : List ℕ := schedGo 48 ws.reverse

/-- One SHA-256 compression round on the 8-word working state. -/
def roundStep (st : List ℕ) (kw : ℕ × ℕ) : List ℕ :=
  match st with
  | [a, b, c, d, e, f, g, h] =>
      let t1 := w32 (h + bigSigma1 e + ch e f g + kw.1 + kw.2)
      let t2 := w32 (bigSigma0 a + maj a b c)
      [w32 (t1 + t2), a, b, c, w32 (d + t1), e, f, g]
  | other => other

/-- Compress one 64-byte block into the hash state. -/
def compress (h : List ℕ) (block : List ℕ) : List ℕ :=
  let ws := schedule (toWords block)
  let st := (K.zip ws).foldl roundStep h
  List.zipWith (fun x y => w32 (x + y)) h st

/-- SHA-256 padding: `0x80`, zeros to 56 mod 64, then the 64-bit
big-endian bit length. -/
def pad (msg : List ℕ) : List ℕ :=
  msg ++ 128 :: (List.replicate ((119 - msg.length % 64) % 64) 0 ++ beBytes 8 (8 * msg.length))

/-- Split into 64-byte chunks (fuel-driven; `fuel ≥ length` suffices). -/
def chunksGo : ℕ → List ℕ → List (List ℕ)
  | 0, _ => []
  | fuel + 1, l => if l.isEmpty then [] else l.take 64 :: chunksGo fuel (l.drop 64)

/-- The SHA-256 digest (32 bytes) of a byte string. -/
def sha256 (msg : List ℕ) : List ℕ :=
  let padded := pad msg
  (((chunksGo padded.length padded).foldl compress H0).map (beBytes 4)).flatten

/-- Lowercase hex character of a nibble (`0`–`9`, `a`–`f`). -/
def hexDigit (d : ℕ) : ℕ := if d < 10 then 48 + d else 87 + d

/-- The two lowercase hex characters of one byte. -/
def hexByte (b : ℕ) : List ℕ := [hexDigit (b / 16), hexDigit (b % 16)]

/-- Rust's `format!("{:x}", digest)` on a SHA-256 digest: each byte as
two lowercase hex characters, in digest order. -/
def toHex (bs : List ℕ) : List ℕ := (bs.map hexByte).flatten

end Sha256

/-! ## Spec-side commitment primitive (§4.1 of the spec)

Stated from the spec's words, to be compared against the source's
`compute_commitment` functions (refinement): commit concatenates the
parts in the given order with no separators, hashes with SHA-256, and
renders the digest as lowercase hexadecimal text; verification is exact
string equality. -/

namespace Spec

/-- Spec-side `commit(parts)`: concatenate in order, no separators,
SHA-256, lowercase hex. -/
def commit (parts : List Bytes) : Bytes := Sha256.toHex (Sha256.sha256 parts.flatten)

/-- Spec-side `verify_commitment(parts, claimed)`: true iff `commit parts`
is byte-for-byte equal to `claimed`. -/
def verify_commitment (parts : List Bytes) (claimed : Bytes) : Bool :=
  commit parts == claimed

end Spec

/-! ## The collateral-value checker (`collateral-value/src/main.rs`) -/

namespace Collateral

/-- `CollateralInput` (the witness). -/
structure CollateralInput where
  commitment : Bytes
  collateral_value : ℕ
  min_value : ℕ
  salt : Bytes
  deriving DecidableEq

/-- `CollateralOutput` (the public result). -/
structure CollateralOutput where
  commitment : Bytes
  min_value : ℕ
  is_valid : Bool
  deriving DecidableEq

/-- `compute_commitment(value, salt)`: the two `update` calls feed the
concatenation `value ++ salt` to SHA-256; the digest is formatted as
lowercase hex. -/
def compute_commitment (value salt : Bytes) : Bytes :=
  Sha256.toHex (Sha256.sha256 (value ++ salt))

/-- The local `is_valid` binding of `main` (the value predicate; the
spec calls it `is_valid_amount`): `collateral_value >= min_value`. -/
def is_valid_amount (input : CollateralInput) : Bool :=
  decide (input.collateral_value ≥ input.min_value)

/-- The local `commitment_valid` binding of `main`:
`compute_commitment(collateral_value.to_string(), salt) == commitment`. -/
def commitment_valid (input : CollateralInput) : Bool :=
  compute_commitment (toStringBytes input.collateral_value) input.salt == input.commitment

/-- The body of `main`: read the witness, evaluate the two checks,
emit the output record. -/
def main (input : CollateralInput) : CollateralOutput :=
  { commitment := input.commitment
    min_value := input.min_value
    is_valid := is_valid_amount input && commitment_valid input }

end Collateral

/-! ## The loan-amount checker (`loan-amount/src/main.rs`) -/

namespace LoanAmount

/-- `AmountInput` (the witness). -/
structure AmountInput where
  commitment : Bytes
  loan_amount : ℕ
  min_amount : ℕ
  max_amount : ℕ
  salt : Bytes
  deriving DecidableEq

/-- `AmountOutput` (the public result). -/
structure AmountOutput where
  commitment : Bytes
  min_amount : ℕ
  max_amount : ℕ
  is_valid : Bool
  deriving DecidableEq

/-- `compute_commitment(value, salt)`, identical to the collateral one. -/
def compute_commitment (value salt : Bytes) : Bytes :=
  Sha256.toHex (Sha256.sha256 (value ++ salt))

/-- The local `is_in_range` binding of `main`:
`loan_amount >= min_amount && loan_amount <= max_amount`. -/
def is_in_range (input : AmountInput) : Bool :=
  decide (input.loan_amount ≥ input.min_amount) &&
    decide (input.loan_amount ≤ input.max_amount)

/-- The local `commitment_valid` binding of `main`. -/
def commitment_valid (input : AmountInput) : Bool :=
  compute_commitment (toStringBytes input.loan_amount) input.salt == input.commitment

/-- The body of `main`. -/
def main (input : AmountInput) : AmountOutput :=
  { commitment := input.commitment
    min_amount := input.min_amount
    max_amount := input.max_amount
    is_valid := is_in_range input && commitment_valid input }

end LoanAmount

/-! ## The reputation checker (`reputation/src/main.rs`) -/

namespace Reputation

/-- `LoanRecord`. -/
structure LoanRecord where
  loan_id : ℕ
  amount : ℕ
  repaid : Bool
  deriving DecidableEq

/-- `ReputationInput` (the witness). -/
structure ReputationInput where
  commitment : Bytes
  nullifier : Bytes
  user_score : ℕ
  threshold : ℕ
  loan_history : List LoanRecord
  salt : Bytes
  deriving DecidableEq

/-- `ReputationOutput` (the public result). -/
structure ReputationOutput where
  commitment : Bytes
  nullifier : Bytes
  threshold : ℕ
  is_valid : Bool
  deriving DecidableEq

/-- `compute_commitment(score, nullifier, salt)`: the three `update`
calls feed `score ++ nullifier ++ salt` to SHA-256; lowercase hex. -/
def compute_commitment (score nullifier salt : Bytes) : Bytes :=
  Sha256.toHex (Sha256.sha256 (score ++ nullifier ++ salt))

/-- `calculate_reputation(history)`: `0` on an empty history, otherwise
`((repaid_count as f32 / total_count as f32) * 100.0) as u32` — the
exact IEEE `f32` computation, not the exact fraction. -/
def calculate_reputation (history : List LoanRecord) : ℕ :=
  if history.isEmpty then 0
  else
    let repaid_count := (history.filter fun l => l.repaid).length
    let total_count := history.length
    F32.toU32 (F32.fmulNat (F32.fdiv (F32.ofNat repaid_count) (F32.ofNat total_count)) 100)

/-- The local `commitment_valid` binding of `main`:
`compute_commitment(user_score.to_string(), nullifier, salt) == commitment`. -/
def commitment_valid (input : ReputationInput) : Bool :=
  compute_commitment (toStringBytes input.user_score) input.nullifier input.salt
    == input.commitment

/-- The body of `main`: compute the score from the history, check the
threshold, recheck the commitment, and conjoin with score consistency. -/
def main (input : ReputationInput) : ReputationOutput :=
  let calculated_score := calculate_reputation input.loan_history
  let meets_threshold := decide (calculated_score ≥ input.threshold)
  { commitment := input.commitment
    nullifier := input.nullifier
    threshold := input.threshold
    is_valid := meets_threshold && commitment_valid input &&
      decide (calculated_score = input.user_score) }

end Reputation

/-! ## Concrete data for counterexamples and witnesses -/

/-- A 100-record history with 53 repaid loans: the smallest history
shape on which the `f32` score diverges from exact integer arithmetic
(the `f32` value of `53 / 100` is `0.52999997…`, so scaling by `100`
and truncating yields `52`, not `53`). -/
def cexHist : List Reputation.LoanRecord :=
  List.replicate 53 ⟨0, 0, true⟩ ++ List.replicate 47 ⟨0, 0, false⟩

/-- A one-record, fully repaid history: a small in-range input. -/
def oneGoodLoan : List Reputation.LoanRecord := [⟨0, 0, true⟩]

/-- A reputation witness with an empty loan history (all other fields
trivial). -/
def emptyRepWitness : Reputation.ReputationInput := ⟨[], [], 0, 0, [], []⟩

/-- Does the `f32` score expression of `calculate_reputation` agree with
exact integer division on counts `(r, t)`? -/
def scoreEq (r t : ℕ) : Bool :=
  F32.toU32 (F32.fmulNat (F32.fdiv (F32.ofNat r) (F32.ofNat t)) 100) == r * 100 / t

/-- `scoreEq r' t` for every `r' ≤ r`, as one Boolean computation. -/
def scoreRowCheck : ℕ → ℕ → Bool
  | t, 0 => scoreEq 0 t
  | t, r + 1 => scoreEq (r + 1) t && scoreRowCheck t r

/-- `scoreEq r t` for every `r ≤ t` with `t ∈ [lo, lo + k)`, as one
Boolean computation (split into bands so each certificate stays small). -/
def scoreRangeCheck : ℕ → ℕ → Bool
  | _, 0 => true
  | lo, k + 1 => scoreRowCheck (lo + k) (lo + k) && scoreRangeCheck lo k

/-! ## Helper lemmas -/

/-- Every byte produced by `beBytes` is below 256. -/
theorem beBytes_mem_lt : ∀ (k n b : ℕ), b ∈ Sha256.beBytes k n → b < 256 := by
  intro k
  induction k with
  | zero => intro n b hb; simp [Sha256.beBytes] at hb
  | succ k ih =>
      intro n b hb
      simp only [Sha256.beBytes, List.mem_cons] at hb
      rcases hb with hb | hb
      · subst hb; exact Nat.mod_lt _ (by norm_num)
      · exact ih n b hb

/-- Every byte of a SHA-256 digest is below 256. -/
theorem sha256_mem_lt (msg : Bytes) (b : ℕ) (hb : b ∈ Sha256.sha256 msg) : b < 256 := by
  simp only [Sha256.sha256, List.mem_flatten, List.mem_map] at hb
  obtain ⟨l, ⟨w, _, hw⟩, hbl⟩ := hb
  exact beBytes_mem_lt 4 w b (hw ▸ hbl)

/-- `hexDigit` of a nibble is a digit `0`–`9` or a letter `a`–`f`. -/
theorem hexDigit_range (d : ℕ) (hd : d < 16) :
    (48 ≤ Sha256.hexDigit d ∧ Sha256.hexDigit d ≤ 57) ∨
    (97 ≤ Sha256.hexDigit d ∧ Sha256.hexDigit d ≤ 102) := by
  unfold Sha256.hexDigit
  split <;> omega

/-- Every character of `toHex` over sub-256 bytes is lowercase hex. -/
theorem toHex_mem_range (bs : Bytes) (hbs : ∀ b ∈ bs, b < 256) (c : ℕ)
    (hc : c ∈ Sha256.toHex bs) :
    (48 ≤ c ∧ c ≤ 57) ∨ (97 ≤ c ∧ c ≤ 102) := by
  simp only [Sha256.toHex, List.mem_flatten, List.mem_map] at hc
  obtain ⟨l, ⟨b, hb, hl⟩, hcl⟩ := hc
  subst hl
  simp only [Sha256.hexByte, List.mem_cons, List.not_mem_nil, or_false] at hcl
  have hblt := hbs b hb
  rcases hcl with h | h <;> subst h
  · exact hexDigit_range _ (by omega)
  · exact hexDigit_range _ (Nat.mod_lt _ (by norm_num))

/-! ## Claims -/

/-- C2: for every `ReputationWitness`, the reputation checker's
`is_valid` is true iff the recomputed score meets the threshold, the
recomputed commitment over (decimal text of `user_score`, `nullifier`,
`salt`) equals the claimed commitment, and the recomputed score equals
the disclosed `user_score`. -/
theorem reputation_is_valid_iff (w : Reputation.ReputationInput) :
    (Reputation.main w).is_valid = true ↔
      (Reputation.calculate_reputation w.loan_history ≥ w.threshold ∧
        Reputation.compute_commitment (toStringBytes w.user_score) w.nullifier w.salt
          = w.commitment ∧
        Reputation.calculate_reputation w.loan_history = w.user_score) := by
  simp [Reputation.main, Reputation.commitment_valid, Bool.and_eq_true,
    decide_eq_true_eq, beq_iff_eq, and_assoc]

/-- C3: the collateral checker's `is_valid` is true iff
`collateral_value ≥ min_value` (inclusive) and the recomputed commitment
over (decimal text of `collateral_value`, `salt`) equals the claimed
one; equality at the bound passes the value predicate, one below the
bound fails it, and `is_valid` is false whenever either conjunct is. -/
theorem collateral_checker_correct (w : Collateral.CollateralInput) :
    ((Collateral.main w).is_valid = true ↔
      (w.collateral_value ≥ w.min_value ∧
        Collateral.compute_commitment (toStringBytes w.collateral_value) w.salt
          = w.commitment)) ∧
    (w.collateral_value = w.min_value → Collateral.is_valid_amount w = true) ∧
    ((w.collateral_value : ℤ) = (w.min_value : ℤ) - 1 →
      Collateral.is_valid_amount w = false) ∧
    ((Collateral.is_valid_amount w = false ∨ Collateral.commitment_valid w = false) →
      (Collateral.main w).is_valid = false) := by
  refine ⟨?_, ?_, ?_, ?_⟩
  · simp [Collateral.main, Collateral.is_valid_amount, Collateral.commitment_valid,
      Bool.and_eq_true, decide_eq_true_eq, beq_iff_eq]
  · intro h; simp [Collateral.is_valid_amount, h]
  · intro h
    simp only [Collateral.is_valid_amount, decide_eq_false_iff_not, ge_iff_le, Nat.not_le]
    omega
  · intro h
    rcases h with h | h <;> simp [Collateral.main, h]

/-- C4: the loan-amount checker's `is_valid` is true iff
`min_amount ≤ loan_amount ≤ max_amount` (both inclusive) and the
recomputed commitment over (decimal text of `loan_amount`, `salt`)
equals the claimed one; when `min_amount > max_amount` the range
predicate, and hence `is_valid`, is false. -/
theorem loan_amount_checker_correct (w : LoanAmount.AmountInput) :
    ((LoanAmount.main w).is_valid = true ↔
      (w.min_amount ≤ w.loan_amount ∧ w.loan_amount ≤ w.max_amount ∧
        LoanAmount.compute_commitment (toStringBytes w.loan_amount) w.salt
          = w.commitment)) ∧
    (w.min_amount > w.max_amount → LoanAmount.is_in_range w = false) ∧
    (w.min_amount > w.max_amount → (LoanAmount.main w).is_valid = false) := by
  have hrange : w.min_amount > w.max_amount → LoanAmount.is_in_range w = false := by
    intro h
    simp only [LoanAmount.is_in_range, Bool.and_eq_false_iff, decide_eq_false_iff_not,
      ge_iff_le, Nat.not_le]
    omega
  refine ⟨?_, hrange, fun h => ?_⟩
  · simp [LoanAmount.main, LoanAmount.is_in_range, LoanAmount.commitment_valid,
      Bool.and_eq_true, decide_eq_true_eq, beq_iff_eq, and_assoc]
  · simp [LoanAmount.main, hrange h]

/-- C5: the commitment primitive concatenates its parts in order with no
separators, applies SHA-256, and renders the digest as lowercase hex;
each checker's recomputed commitment is exactly the primitive applied to
its documented part list, and each checker's commitment comparison is
true iff the recomputed digest equals the claimed string byte for byte. -/
theorem commitment_primitive_correct :
    (∀ parts claimed, Spec.verify_commitment parts claimed = true ↔
      Spec.commit parts = claimed) ∧
    (∀ parts, Spec.commit parts = Sha256.toHex (Sha256.sha256 parts.flatten)) ∧
    (∀ v s, Collateral.compute_commitment v s = Spec.commit [v, s]) ∧
    (∀ v s, LoanAmount.compute_commitment v s = Spec.commit [v, s]) ∧
    (∀ sc nu sa, Reputation.compute_commitment sc nu sa = Spec.commit [sc, nu, sa]) ∧
    (∀ w, Collateral.commitment_valid w = true ↔
      Collateral.compute_commitment (toStringBytes w.collateral_value) w.salt
        = w.commitment) ∧
    (∀ w, LoanAmount.commitment_valid w = true ↔
      LoanAmount.compute_commitment (toStringBytes w.loan_amount) w.salt
        = w.commitment) ∧
    (∀ w, Reputation.commitment_valid w = true ↔
      Reputation.compute_commitment (toStringBytes w.user_score) w.nullifier w.salt
        = w.commitment) ∧
    (∀ parts c, c ∈ Spec.commit parts →
      (48 ≤ c ∧ c ≤ 57) ∨ (97 ≤ c ∧ c ≤ 102)) := by
  refine ⟨?_, ?_, ?_, ?_, ?_, ?_, ?_, ?_, ?_⟩
  · intro parts claimed; simp [Spec.verify_commitment, beq_iff_eq]
  · intro parts; rfl
  · intro v s; simp [Spec.commit, Collateral.compute_commitment]
  · intro v s; simp [Spec.commit, LoanAmount.compute_commitment]
  · intro sc nu sa; simp [Spec.commit, Reputation.compute_commitment]
  · intro w; simp [Collateral.commitment_valid, beq_iff_eq]
  · intro w; simp [LoanAmount.commitment_valid, beq_iff_eq]
  · intro w; simp [Reputation.commitment_valid, beq_iff_eq]
  · intro parts c hc
    exact toHex_mem_range _ (fun b hb => sha256_mem_lt _ b hb) c hc

/-- C6: the commitment depends only on the concatenation of its parts:
any two splits with the same concatenated bytes collide — in particular
`compute_commitment("12", "34") = compute_commitment("1", "234")`. -/
theorem commitment_concatenation_collision :
    (∀ v1 s1 v2 s2 : Bytes, v1 ++ s1 = v2 ++ s2 →
      Collateral.compute_commitment v1 s1 = Collateral.compute_commitment v2 s2) ∧
    Collateral.compute_commitment [49, 50] [51, 52] =
      Collateral.compute_commitment [49] [50, 51, 52] := by
  constructor
  · intro v1 s1 v2 s2 h
    simp [Collateral.compute_commitment, h]
  · simp [Collateral.compute_commitment]

/-- C7: with an empty `loan_history` the recomputed score is `0`, so
`is_valid` can only be true when the threshold is `0`, the disclosed
`user_score` is `0`, and the commitment matches. -/
theorem reputation_empty_history (w : Reputation.ReputationInput)
    (h : w.loan_history = []) :
    Reputation.calculate_reputation w.loan_history = 0 ∧
    ((Reputation.main w).is_valid = true →
      w.threshold = 0 ∧ w.user_score = 0 ∧
        Reputation.compute_commitment (toStringBytes w.user_score) w.nullifier w.salt
          = w.commitment) := by
  have hz : Reputation.calculate_reputation w.loan_history = 0 := by
    rw [h]; rfl
  refine ⟨hz, fun hv => ?_⟩
  simp only [Reputation.main, Reputation.commitment_valid, hz, Bool.and_eq_true,
    decide_eq_true_eq, beq_iff_eq, ge_iff_le, Nat.le_zero] at hv
  obtain ⟨⟨h1, h2⟩, h3⟩ := hv
  exact ⟨h1, h3.symm, h2⟩

/-- C8: every non-`is_valid` output field of each checker is copied
verbatim from the corresponding witness field. -/
theorem outputs_echo_public_inputs :
    (∀ w : Collateral.CollateralInput,
      (Collateral.main w).commitment = w.commitment ∧
      (Collateral.main w).min_value = w.min_value) ∧
    (∀ w : LoanAmount.AmountInput,
      (LoanAmount.main w).commitment = w.commitment ∧
      (LoanAmount.main w).min_amount = w.min_amount ∧
      (LoanAmount.main w).max_amount = w.max_amount) ∧
    (∀ w : Reputation.ReputationInput,
      (Reputation.main w).commitment = w.commitment ∧
      (Reputation.main w).nullifier = w.nullifier ∧
      (Reputation.main w).threshold = w.threshold) :=
  ⟨fun _ => ⟨rfl, rfl⟩, fun _ => ⟨rfl, rfl, rfl⟩, fun _ => ⟨rfl, rfl, rfl⟩⟩

/-- C9: each checker is a total function of its witness — every witness
yields exactly one output record; moreover the reputation division is
reached only with a positive record count, and the computed score always
fits a `u32`. -/
theorem checkers_total :
    (∀ w : Collateral.CollateralInput, ∃! o, Collateral.main w = o) ∧
    (∀ w : LoanAmount.AmountInput, ∃! o, LoanAmount.main w = o) ∧
    (∀ w : Reputation.ReputationInput, ∃! o, Reputation.main w = o) ∧
    (∀ history : List Reputation.LoanRecord,
      history.isEmpty = false → 0 < history.length) ∧
    (∀ history : List Reputation.LoanRecord,
      Reputation.calculate_reputation history ≤ 4294967295) := by
  refine ⟨fun w => ⟨_, rfl, fun y hy => hy.symm⟩,
    fun w => ⟨_, rfl, fun y hy => hy.symm⟩,
    fun w => ⟨_, rfl, fun y hy => hy.symm⟩, ?_, ?_⟩
  · intro history hh
    cases history with
    | nil => simp at hh
    | cons a t => simp
  · intro history
    unfold Reputation.calculate_reputation
    split
    · omega
    · exact Nat.min_le_right _ _

/-- C10: for each checker, witnesses agreeing on the public fields
produce outputs equal on every field other than `is_valid`: the secret
material can influence only the validity bit. -/
theorem secret_fields_do_not_leak :
    (∀ w1 w2 : Collateral.CollateralInput,
      w1.commitment = w2.commitment → w1.min_value = w2.min_value →
      (Collateral.main w1).commitment = (Collateral.main w2).commitment ∧
      (Collateral.main w1).min_value = (Collateral.main w2).min_value) ∧
    (∀ w1 w2 : LoanAmount.AmountInput,
      w1.commitment = w2.commitment → w1.min_amount = w2.min_amount →
      w1.max_amount = w2.max_amount →
      (LoanAmount.main w1).commitment = (LoanAmount.main w2).commitment ∧
      (LoanAmount.main w1).min_amount = (LoanAmount.main w2).min_amount ∧
      (LoanAmount.main w1).max_amount = (LoanAmount.main w2).max_amount) ∧
    (∀ w1 w2 : Reputation.ReputationInput,
      w1.commitment = w2.commitment → w1.nullifier = w2.nullifier →
      w1.threshold = w2.threshold →
      (Reputation.main w1).commitment = (Reputation.main w2).commitment ∧
      (Reputation.main w1).nullifier = (Reputation.main w2).nullifier ∧
      (Reputation.main w1).threshold = (Reputation.main w2).threshold) :=
  ⟨fun _ _ h1 h2 => ⟨h1, h2⟩,
   fun _ _ h1 h2 h3 => ⟨h1, h2, h3⟩,
   fun _ _ h1 h2 h3 => ⟨h1, h2, h3⟩⟩

/-- Witness for C7, at the concrete all-trivial empty-history witness. -/
theorem reputation_empty_history_witness :
    emptyRepWitness.loan_history = [] ∧
    (Reputation.calculate_reputation emptyRepWitness.loan_history = 0 ∧
      ((Reputation.main emptyRepWitness).is_valid = true →
        emptyRepWitness.threshold = 0 ∧ emptyRepWitness.user_score = 0 ∧
          Reputation.compute_commitment (toStringBytes emptyRepWitness.user_score)
              emptyRepWitness.nullifier emptyRepWitness.salt
            = emptyRepWitness.commitment)) :=
  ⟨rfl, reputation_empty_history emptyRepWitness rfl⟩

section

set_option maxRecDepth 1000000
set_option maxHeartbeats 4000000

/-- A true `scoreRowCheck` certifies `scoreEq` on every count up to the
bound. -/
theorem scoreRowCheck_sound (t : ℕ) :
    ∀ r, scoreRowCheck t r = true → ∀ r', r' ≤ r → scoreEq r' t = true := by
  intro r
  induction r with
  | zero =>
      intro h r' hr'
      have hz : r' = 0 := Nat.le_zero.mp hr'
      subst hz
      simpa [scoreRowCheck] using h
  | succ n ih =>
      intro h r' hr'
      simp only [scoreRowCheck, Bool.and_eq_true] at h
      rcases Nat.eq_or_lt_of_le hr' with he | hl
      · subst he; exact h.1
      · exact ih h.2 r' (by omega)

/-- A true `scoreRangeCheck` certifies `scoreEq` on every pair with a
total count inside the band. -/
theorem scoreRangeCheck_sound :
    ∀ (lo k : ℕ), scoreRangeCheck lo k = true →
      ∀ t, lo ≤ t → t < lo + k → ∀ r, r ≤ t → scoreEq r t = true := by
  intro lo k
  induction k with
  | zero => intro _ t _ hlt; omega
  | succ n ih =>
      intro h t hlo hlt r hr
      simp only [scoreRangeCheck, Bool.and_eq_true] at h
      rcases Nat.lt_or_ge t (lo + n) with hc | hc
      · exact ih h.2 t hlo hc r hr
      · have he : t = lo + n := by omega
        subst he
        exact scoreRowCheck_sound _ _ h.1 r hr

/-- Adjacent bands concatenate. -/
theorem scoreRangeCheck_append (lo k : ℕ) :
    ∀ m, scoreRangeCheck lo k = true → scoreRangeCheck (lo + k) m = true →
      scoreRangeCheck lo (k + m) = true := by
  intro m
  induction m with
  | zero => intro h1 _; simpa using h1
  | succ n ih =>
      intro h1 h2
      simp only [scoreRangeCheck, Bool.and_eq_true] at h2
      have hgoal : scoreRangeCheck lo (k + n + 1) = true := by
        simp only [scoreRangeCheck, Bool.and_eq_true]
        refine ⟨?_, ih h1 h2.2⟩
        have harith : lo + (k + n) = lo + k + n := by omega
        rw [harith]
        exact h2.1
      have harith2 : k + (n + 1) = k + n + 1 := by omega
      rw [harith2]
      exact hgoal

/-- Exhaustive kernel evaluation, total counts `0`–`4`. -/
theorem scoreChunk00 : scoreRangeCheck 0 5 = true := by rfl

/-- Exhaustive kernel evaluation, total counts `5`–`9`. -/
theorem scoreChunk05 : scoreRangeCheck 5 5 = true := by rfl

/-- Exhaustive kernel evaluation, total counts `10`–`14`. -/
theorem scoreChunk10 : scoreRangeCheck 10 5 = true := by rfl

/-- Exhaustive kernel evaluation, total counts `15`–`19`. -/
theorem scoreChunk15 : scoreRangeCheck 15 5 = true := by rfl

/-- Exhaustive kernel evaluation, total counts `20`–`24`. -/
theorem scoreChunk20 : scoreRangeCheck 20 5 = true := by rfl

/-- Exhaustive kernel evaluation, total counts `25`–`29`. -/
theorem scoreChunk25 : scoreRangeCheck 25 5 = true := by rfl

/-- Exhaustive kernel evaluation, total counts `30`–`34`. -/
theorem scoreChunk30 : scoreRangeCheck 30 5 = true := by rfl

/-- Exhaustive kernel evaluation, total counts `35`–`39`. -/
theorem scoreChunk35 : scoreRangeCheck 35 5 = true := by rfl

/-- Exhaustive kernel evaluation, total counts `40`–`44`. -/
theorem scoreChunk40 : scoreRangeCheck 40 5 = true := by rfl

/-- Exhaustive kernel evaluation, total counts `45`–`49`. -/
theorem scoreChunk45 : scoreRangeCheck 45 5 = true := by rfl

/-- Exhaustive kernel evaluation, total counts `50`–`54`. -/
theorem scoreChunk50 : scoreRangeCheck 50 5 = true := by rfl

/-- Exhaustive kernel evaluation, total counts `55`–`59`. -/
theorem scoreChunk55 : scoreRangeCheck 55 5 = true := by rfl

/-- Exhaustive kernel evaluation, total counts `60`–`64`. -/
theorem scoreChunk60 : scoreRangeCheck 60 5 = true := by rfl

/-- Exhaustive kernel evaluation, total counts `65`–`69`. -/
theorem scoreChunk65 : scoreRangeCheck 65 5 = true := by rfl

/-- Exhaustive kernel evaluation, total counts `70`–`74`. -/
theorem scoreChunk70 : scoreRangeCheck 70 5 = true := by rfl

/-- Exhaustive kernel evaluation, total counts `75`–`79`. -/
theorem scoreChunk75 : scoreRangeCheck 75 5 = true := by rfl

/-- Exhaustive kernel evaluation, total counts `80`–`84`. -/
theorem scoreChunk80 : scoreRangeCheck 80 5 = true := by rfl

/-- Exhaustive kernel evaluation, total counts `85`–`89`. -/
theorem scoreChunk85 : scoreRangeCheck 85 5 = true := by rfl

/-- Exhaustive kernel evaluation, total counts `90`–`94`. -/
theorem scoreChunk90 : scoreRangeCheck 90 5 = true := by rfl

/-- Exhaustive kernel evaluation, total counts `95`–`99`. -/
theorem scoreChunk95 : scoreRangeCheck 95 5 = true := by rfl

/-- The agreement check holds on every pair `r ≤ t ≤ 99`: the twenty
band certificates glued together. -/
theorem scoreCheck_0_100 : scoreRangeCheck 0 100 = true := by
  have c95 := scoreChunk95
  have c90 := scoreRangeCheck_append 90 5 5 scoreChunk90 c95
  have c85 := scoreRangeCheck_append 85 5 10 scoreChunk85 c90
  have c80 := scoreRangeCheck_append 80 5 15 scoreChunk80 c85
  have c75 := scoreRangeCheck_append 75 5 20 scoreChunk75 c80
  have c70 := scoreRangeCheck_append 70 5 25 scoreChunk70 c75
  have c65 := scoreRangeCheck_append 65 5 30 scoreChunk65 c70
  have c60 := scoreRangeCheck_append 60 5 35 scoreChunk60 c65
  have c55 := scoreRangeCheck_append 55 5 40 scoreChunk55 c60
  have c50 := scoreRangeCheck_append 50 5 45 scoreChunk50 c55
  have c45 := scoreRangeCheck_append 45 5 50 scoreChunk45 c50
  have c40 := scoreRangeCheck_append 40 5 55 scoreChunk40 c45
  have c35 := scoreRangeCheck_append 35 5 60 scoreChunk35 c40
  have c30 := scoreRangeCheck_append 30 5 65 scoreChunk30 c35
  have c25 := scoreRangeCheck_append 25 5 70 scoreChunk25 c30
  have c20 := scoreRangeCheck_append 20 5 75 scoreChunk20 c25
  have c15 := scoreRangeCheck_append 15 5 80 scoreChunk15 c20
  have c10 := scoreRangeCheck_append 10 5 85 scoreChunk10 c15
  have c05 := scoreRangeCheck_append 5 5 90 scoreChunk05 c10
  exact scoreRangeCheck_append 0 5 95 scoreChunk00 c05

/-- On every pair `r ≤ t ≤ 99` the `f32` score expression of
`calculate_reputation` agrees with exact integer division `r * 100 / t`
(with `t = 0` both sides are `0`). -/
theorem score_f32_eq_int_div_aux : ∀ t < 100, ∀ r < t + 1,
    F32.toU32 (F32.fmulNat (F32.fdiv (F32.ofNat r) (F32.ofNat t)) 100) = r * 100 / t := by
  intro t ht r hr
  have hs := scoreRangeCheck_sound 0 100 scoreCheck_0_100 t (by omega) (by omega) r (by omega)
  simpa [scoreEq] using hs

/-- C1 (amended): the claim's equivalence with exact integer arithmetic
holds for every non-empty history of at most 99 records; on larger
histories the `f32` round-off can change the truncated percentage (see
the counterexample at 100 records). -/
theorem reputation_score_int_div_small (h : List Reputation.LoanRecord)
    (hne : h ≠ []) (hlen : h.length ≤ 99) :
    Reputation.calculate_reputation h =
      (h.filter fun l => l.repaid).length * 100 / h.length := by
  have hE : h.isEmpty = false := by
    cases h with
    | nil => exact absurd rfl hne
    | cons a t => rfl
  have hfle : (h.filter fun l => l.repaid).length ≤ h.length :=
    List.length_filter_le _ h
  unfold Reputation.calculate_reputation
  rw [hE]
  simp only [Bool.false_eq_true, if_false]
  exact score_f32_eq_int_div_aux h.length (by omega) _ (by omega)

/-- Witness for C1's amended theorem, at the one-record history. -/
theorem reputation_score_int_div_small_witness :
    oneGoodLoan ≠ [] ∧ oneGoodLoan.length ≤ 99 ∧
      Reputation.calculate_reputation oneGoodLoan =
        (oneGoodLoan.filter fun l => l.repaid).length * 100 / oneGoodLoan.length :=
  ⟨by decide, by decide,
    reputation_score_int_div_small oneGoodLoan (by decide) (by decide)⟩

/-- Counterexample to C1 as stated: on the explicit 100-record history
with 53 repaid loans, `calculate_reputation` returns `52` (the `f32`
value of `53 / 100` is slightly below `0.53`, so scaling by `100` and
truncating loses one), while the exact integer expression
`repaid_count * 100 / total_count` gives `53`. -/
theorem reputation_score_f32_counterexample :
    Reputation.calculate_reputation cexHist = 52 ∧
    (cexHist.filter fun l => l.repaid).length * 100 / cexHist.length = 53 := by
  constructor
  · decide
  · decide

end

end Xerolend
